import Mathlib

/-!
Verification development for the chrome-dino game (`src/main.rs`).

The game's per-tick systems are pure functions over small records once the
Bevy ECS plumbing is stripped away.  We embed them shallowly over `ℚ`
(`f32` values in the source are modelled as exact rationals; every constant
appearing in the source is an exact decimal).  Randomness is made explicit:
`rand::rng().random_bool(0.85)` becomes a `Bool` parameter and
`rng.random_range(lo..hi)` on floats, which by the `rand` crate contract
returns `lo + u * (hi - lo)` for a unit sample `u ∈ [0,1)`, becomes a
function of an explicit unit sample `u`.

The app fixes the time step via `TimeUpdateStrategy::ManualDuration(1/60 s)`
(main.rs line 119), so every `time.delta_secs()` the systems observe is the
constant `1/60`; theorems that need a bound on `dt` are therefore stated for
a range of `dt` containing `1/60`.
-/

namespace Dino

/-- Game constants from main.rs lines 5-10. -/
def WINDOW_WIDTH : ℚ := 800

def GROUND_Y : ℚ := -150

def GRAVITY : ℚ := -1200

def JUMP_SPEED : ℚ := 500

def GAME_SPEED : ℚ := 300

/-- The player's resting height: `GROUND_Y + 30.0`, the ground plus the
player's half height (the 40x40 dino sprite is centered). -/
def groundLevel : ℚ := GROUND_Y + 30

/-- `enum GameState { Playing, GameOver }` (main.rs lines 14-19). -/
inductive GameState where
  | Playing : GameState
  | GameOver : GameState
deriving Repr, DecidableEq

/-- The `Player` component (main.rs lines 22-27): vertical velocity, the
`is_jumping` animation flag and the jump cooldown in seconds. -/
structure Player where
  velocity_y : ℚ
  is_jumping : Bool
  jump_cooldown : ℚ
deriving Repr, DecidableEq

/-- The `InputState` resource (main.rs lines 70-76), without the dead
`last_jump_time` field. -/
structure InputState where
  space_pressed : Bool
  space_just_pressed : Bool
deriving Repr, DecidableEq

/-- `handle_input` (main.rs lines 259-271): derives the edge-triggered
`space_just_pressed` from the raw key state of this tick and the stored
key state of the previous tick. -/
def handle_input (s : InputState) (space_pressed_now : Bool) : InputState :=
  ⟨space_pressed_now, space_pressed_now && !s.space_pressed⟩

/-- `player_input` (main.rs lines 274-300).  Takes the tick's `dt`, the
debounced input, the `Player` component and the transform's `y`; returns the
updated `Player`.  The cooldown is decremented first (only when positive, with
no floor), then the jump triggers when the space edge fired, the player is on
the ground (`y <= GROUND_Y + 30.0`) and the (already decremented) cooldown is
`<= 0`; on trigger `velocity_y = JUMP_SPEED`, `is_jumping = true`,
`jump_cooldown = 0.1`. -/
def player_input (dt : ℚ) (input : InputState) (p : Player) (y : ℚ) : Player :=
  let cd := if p.jump_cooldown > 0 then p.jump_cooldown - dt else p.jump_cooldown
  if input.space_just_pressed = true ∧ y ≤ GROUND_Y + 30 ∧ cd ≤ 0 then
    ⟨JUMP_SPEED, true, 1/10⟩
  else
    ⟨p.velocity_y, p.is_jumping, cd⟩

/-- `apply_gravity` (main.rs lines 302-317): explicit Euler step
`velocity_y += GRAVITY * dt; y += velocity_y * dt`, then the ground clamp:
if `y <= GROUND_Y + 30.0` set `y = GROUND_Y + 30.0`, `velocity_y = 0`,
`is_jumping = false`.  Returns the updated player and `y`. -/
def apply_gravity (dt : ℚ) (p : Player) (y : ℚ) : Player × ℚ :=
  let v := p.velocity_y + GRAVITY * dt
  let y2 := y + v * dt
  if y2 ≤ GROUND_Y + 30 then
    (⟨0, false, p.jump_cooldown⟩, GROUND_Y + 30)
  else
    (⟨v, p.is_jumping, p.jump_cooldown⟩, y2)

/-- The loop body of `check_collisions` (main.rs lines 385-405) for one
player/obstacle pair of transform centers: early-exit when `|dx| > 50`,
early-exit when `|dy| > 50`, otherwise collide iff `|dx| < 25 && |dy| < 25`. -/
def pair_collides (px py ox oy : ℚ) : Bool :=
  let dx := |px - ox|
  if dx > 50 then false
  else
    let dy := |py - oy|
    if dy > 50 then false
    else decide (dx < 25) && decide (dy < 25)

/-- `check_collisions` (main.rs lines 376-407): iterate the obstacles in
order; on the first colliding pair set the next state to `GameOver` and
return.  The system only runs in `Playing`, and absent a collision the state
is left as `Playing`. -/
def check_collisions (px py : ℚ) : List (ℚ × ℚ) → GameState
  | [] => GameState.Playing
  | o :: rest =>
      if pair_collides px py o.1 o.2 then GameState.GameOver
      else check_collisions px py rest

/-- Narrow-phase-only variant of the collision sweep, stated from the
claim's words for the refinement comparison (C10): no broad-phase early
exits, every obstacle is tested with `|dx| < 25 && |dy| < 25` alone. -/
def check_collisions_narrow (px py : ℚ) : List (ℚ × ℚ) → GameState
  | [] => GameState.Playing
  | o :: rest =>
      if |px - o.1| < 25 ∧ |py - o.2| < 25 then GameState.GameOver
      else check_collisions_narrow px py rest

/-- An obstacle as seen by the scoring system: the `Obstacle` component's
`scored` flag (main.rs lines 39-41) together with its transform's x. -/
structure Obstacle where
  x : ℚ
  scored : Bool
deriving Repr, DecidableEq

/-- The per-obstacle body of `update_score` (main.rs lines 417-424): when the
obstacle is not yet scored and its x is strictly left of the player's x, set
`scored = true` and emit one point, else leave it alone and emit nothing. -/
def score_step (px : ℚ) (o : Obstacle) : Obstacle × ℕ :=
  if o.scored = false ∧ o.x < px then (⟨o.x, true⟩, 1) else (o, 0)

/-- `update_score` (main.rs lines 409-428): walk the obstacle list in order;
for each obstacle that is not yet scored and sits strictly left of the
player's x, set `scored = true`, add 1 to the score counter and rewrite the
score text to `"Score: {value}"`.  Returns the final counter, text and
obstacle list. -/
def update_score (px : ℚ) : ℕ → String → List Obstacle → ℕ × String × List Obstacle
  | s, t, [] => (s, t, [])
  | s, t, o :: os =>
      if o.scored = false ∧ o.x < px then
        let s1 := s + 1
        let r := update_score px s1 ("Score: " ++ toString s1) os
        (r.1, r.2.1, Obstacle.mk o.x true :: r.2.2)
      else
        let r := update_score px s t os
        (r.1, r.2.1, o :: r.2.2)

/-- Total number of points one obstacle contributes over a run of ticks.
Each tick the obstacle sits at the next x of the trajectory `xs` (its x is
moved between ticks by `move_obstacles`) and `score_step` is applied with the
player at `px`; the `scored` flag persists from tick to tick. -/
def score_increments (px : ℚ) (scored : Bool) : List ℚ → ℕ
  | [] => 0
  | x :: xs =>
      let r := score_step px ⟨x, scored⟩
      r.2 + score_increments px r.1.scored xs

/-- A Bevy `Timer` as used by `ObstacleTimer`: a duration and the elapsed
time.  `tick` adds the delta; the timer has just finished when the elapsed
time has reached the duration (the code resets the timer on every firing, so
the repeating wrap never carries over). -/
structure Timer where
  duration : ℚ
  elapsed : ℚ
deriving Repr, DecidableEq

/-- `timer.0.tick(time.delta())`. -/
def Timer.tick (t : Timer) (dt : ℚ) : Timer :=
  ⟨t.duration, t.elapsed + dt⟩

/-- `timer.0.just_finished()`. -/
def Timer.justFinished (t : Timer) : Bool :=
  decide (t.duration ≤ t.elapsed)

/-- Model of `rng.random_range(lo..hi)` on floats: the rand crate returns a
uniform sample in the half-open range, i.e. `lo + u * (hi - lo)` for a unit
sample `u ∈ [0,1)` drawn from the generator state. -/
def sample_range (lo hi u : ℚ) : ℚ := lo + u * (hi - lo)

/-- The fixed obstacle palette `CACTUS_CONFIGS` (main.rs lines 345-348):
(width, height) pairs. -/
def CACTUS_CONFIGS : Fin 2 → ℚ × ℚ
  | 0 => (25, 45)
  | 1 => (35, 55)

/-- A freshly spawned cactus entity: sprite size, transform position, and the
`scored` flag. -/
structure Cactus where
  width : ℚ
  height : ℚ
  x : ℚ
  y : ℚ
  scored : Bool
deriving Repr, DecidableEq

/-- `spawn_obstacles` (main.rs lines 325-374).  The RNG draws are explicit
parameters: `bern` is the outcome of `rng.random_bool(0.85)`, `idx` the
outcome of `rng.random_range(0..2)`, and `u ∈ [0,1)` the unit sample behind
`rng.random_range(0.5..1.8)`.  Ticks the timer; when it fires, spawns a
cactus at x = 500 with its base on the ground when `bern` holds, and in
either case resamples the duration from `[0.5, 1.8)` and resets the timer. -/
def spawn_obstacles (t : Timer) (dt : ℚ) (bern : Bool) (idx : Fin 2) (u : ℚ) :
    Timer × Option Cactus :=
  let t1 := t.tick dt
  if t1.justFinished then
    let spawned :=
      if bern then
        let wh := CACTUS_CONFIGS idx
        some ⟨wh.1, wh.2, 500, GROUND_Y + wh.2 * (1/2), false⟩
      else none
    let next_interval := sample_range (1/2) (9/5) u
    (⟨next_interval, 0⟩, spawned)
  else
    (t1, none)

/-- Ground seeding bounds from `spawn_ground` (main.rs lines 193-198):
`start_x = -WINDOW_WIDTH/2 - 200`, `end_x = WINDOW_WIDTH/2 + 400`,
tile width 100, `tile_count = ceil((end_x - start_x) / tile_width)`. -/
def ground_start_x : ℚ := -WINDOW_WIDTH / 2 - 200

def ground_end_x : ℚ := WINDOW_WIDTH / 2 + 400

def tile_width : ℚ := 100

def tile_count : ℕ := (⌈(ground_end_x - ground_start_x) / tile_width⌉ : ℤ).toNat

/-- A run of `n` contiguous ground-tile centers starting at `lo`, spaced one
tile width apart. -/
def tile_run (lo : ℚ) (n : ℕ) : List ℚ :=
  (List.range n).map (fun (k : ℕ) => lo + 100 * (k : ℚ))

/-- `spawn_ground` (main.rs lines 193-217): the initial ground strip, tiles at
`start_x + i * tile_width` for `i < tile_count`.  `restart_game` re-seeds the
ground with the same computation (lines 497-518). -/
def spawn_ground : List ℚ :=
  (List.range tile_count).map (fun (i : ℕ) => ground_start_x + (i : ℚ) * tile_width)

/-- `move_obstacles` (main.rs lines 319-323) restricted to the ground tiles:
every entity with a `Velocity` moves by `velocity.x * dt` where
`velocity.x = -GAME_SPEED`. -/
def move_ground (dt : ℚ) (g : List ℚ) : List ℚ :=
  g.map (fun x => x + -GAME_SPEED * dt)

/-- `despawn_offscreen` (main.rs lines 430-447) restricted to the ground
tiles: remove every tile with `x < -500`. -/
def despawn_ground (g : List ℚ) : List ℚ :=
  g.filter (fun x => decide (¬ x < -500))

/-- The rightmost-tile fold of `spawn_ground_tiles` (main.rs lines 454-460):
`rightmost_x` starts at `-400` and takes every tile x that beats it. -/
def rightmost (g : List ℚ) : ℚ :=
  g.foldl (fun acc x => if x > acc then x else acc) (-400)

/-- `spawn_ground_tiles` (main.rs lines 449-481): when the rightmost tile x
has fallen below `WINDOW_WIDTH/2 + 100`, append three new tiles at
`rightmost + 100 + i*100` for `i = 0, 1, 2`. -/
def spawn_ground_tiles (g : List ℚ) : List ℚ :=
  let r := rightmost g
  if r < WINDOW_WIDTH / 2 + 100 then
    g ++ [r + 100 + 0 * 100, r + 100 + 1 * 100, r + 100 + 2 * 100]
  else g

/-- One Playing-state tick of the ground strip, in the pipeline order of §2:
movement, then off-screen cleanup, then tile replenishment. -/
def ground_tick (dt : ℚ) (g : List ℚ) : List ℚ :=
  spawn_ground_tiles (despawn_ground (move_ground dt g))

/-- An entity as seen by `despawn_offscreen`'s query
`(Entity, &Transform), (With<Velocity>, Without<Player>)`: whether it carries
a `Velocity` component, whether it is the player, and its transform x. -/
structure Ent where
  hasVelocity : Bool
  isPlayer : Bool
  x : ℚ
deriving Repr, DecidableEq

/-- `despawn_offscreen` (main.rs lines 430-447): despawn exactly the entities
matched by the query (`Velocity` present, not the player) whose x is strictly
below -500; all other entities survive untouched. -/
def despawn_offscreen (es : List Ent) : List Ent :=
  es.filter (fun e => decide (¬ (e.hasVelocity = true ∧ e.isPlayer = false ∧ e.x < -500)))

/-- The score display entity: `GameScore { value }` plus its `Text2d`. -/
structure ScoreEnt where
  value : ℕ
  text : String
deriving Repr, DecidableEq

/-- The whole game world touched by `restart_game`: the entity lists for each
queried component, the input resource, the obstacle timer and the state. -/
structure World where
  players : List (Player × ℚ)
  obstacles : List Obstacle
  grounds : List ℚ
  scores : List ScoreEnt
  fpsTexts : List String
  gameOverTexts : List String
  input : InputState
  timer : Timer
  state : GameState
deriving Repr, DecidableEq

/-- The player spawned by `spawn_player` and `restart_game`: zero velocity,
not jumping, zero cooldown, at `y = GROUND_Y + 30.0`. -/
def initial_player : Player × ℚ :=
  (⟨0, false, 0⟩, GROUND_Y + 30)

/-- `restart_game` (main.rs lines 483-568): when the space edge fired,
despawn every `Obstacle`/`GameScore`/`Ground`/`Player`/`FpsText`/
`GameOverText` entity, re-seed the ground strip with the `spawn_ground`
computation, respawn the player, the `"Score: 0"` display and the FPS text,
clear both debounced input flags, reset the obstacle timer to a fresh
2.0-second duration, and set the next state to `Playing`; otherwise change
nothing. -/
def restart_game (w : World) : World :=
  if w.input.space_just_pressed = true then
    { players := [initial_player]
      obstacles := []
      grounds := spawn_ground
      scores := [⟨0, "Score: 0"⟩]
      fpsTexts := ["FPS: 60"]
      gameOverTexts := []
      input := ⟨false, false⟩
      timer := ⟨2, 0⟩
      state := GameState.Playing }
  else w

/-- The `GameOver` schedule of main.rs line 162: `handle_input` then
`restart_game`, run only in the `GameOver` state (`show_game_over_screen`
only touches the banner and is a no-op on the tick the restart fires, its
query predating the deferred despawns). -/
def gameover_update (w : World) (space_pressed_now : Bool) : World :=
  if w.state = GameState.GameOver then
    restart_game { w with input := handle_input w.input space_pressed_now }
  else w

/-- The cooldown update of main.rs lines 283-285 in isolation: decrement by
`dt` only while positive, with no floor. -/
def cooldown_after (dt : ℚ) (p : Player) : ℚ :=
  if p.jump_cooldown > 0 then p.jump_cooldown - dt else p.jump_cooldown

/-- A run of `player_input` ticks: each step supplies that tick's `dt`, the
debounced input and the player's transform y. -/
def player_input_run (steps : List (ℚ × InputState × ℚ)) (p : Player) : Player :=
  steps.foldl (fun q s => player_input s.1 s.2.1 q s.2.2) p

/-- The ground-strip shape invariant: the tiles form one contiguous run with
100-wide spacing whose leftmost center is at or left of `-400` (so its span
reaches the window's left edge minus the 50 half-tile buffer) and whose
rightmost center is at or right of `500` (window's right edge plus the
replenish threshold). -/
def GroundInv (g : List ℚ) : Prop :=
  ∃ lo : ℚ, ∃ m : ℕ, g = tile_run lo (m + 1) ∧ lo ≤ -400 ∧ 500 ≤ lo + 100 * m

/-- C2: for every starting velocity, starting y and delta time, one
`apply_gravity` step leaves y at or above the ground level
`GROUND_Y + 30` (the player's resting height), and whenever the resulting y
equals the ground level the resulting velocity is 0. -/
theorem apply_gravity_ground_clamp (dt : ℚ) (p : Player) (y : ℚ) :
    groundLevel ≤ (apply_gravity dt p y).2 ∧
    ((apply_gravity dt p y).2 = groundLevel → (apply_gravity dt p y).1.velocity_y = 0) := by
  simp only [apply_gravity, groundLevel]
  split_ifs with h
  · exact ⟨le_refl _, fun _ => rfl⟩
  · exact ⟨le_of_lt (lt_of_not_le h), fun he => absurd he.le h⟩

/-- Witness for C2: a concrete landing tick from the resting height. -/
theorem apply_gravity_ground_clamp_witness :
    groundLevel ≤ (apply_gravity (1/60) ⟨0, false, 0⟩ groundLevel).2 ∧
    (apply_gravity (1/60) ⟨0, false, 0⟩ groundLevel).1.velocity_y = 0 :=
  ⟨(apply_gravity_ground_clamp (1/60) ⟨0, false, 0⟩ groundLevel).1,
   (apply_gravity_ground_clamp (1/60) ⟨0, false, 0⟩ groundLevel).2
     (by norm_num [apply_gravity, groundLevel, GROUND_Y, GRAVITY])⟩

/-- C5 counterexample: `player_input` decrements a positive cooldown by `dt`
with no floor at 0, so one tick from the non-negative cooldown `1/20` with
`dt = 1/10` leaves a strictly negative cooldown, refuting the claimed
`jump_cooldown >= 0` invariant. -/
theorem cooldown_no_floor_counterexample :
    (player_input (1/10) ⟨false, false⟩ ⟨0, false, 1/20⟩ groundLevel).jump_cooldown < 0 := by
  norm_num [player_input]

/-- C5 amended: the positive-cooldown decrement has no floor, so the
cooldown can dip below zero, but only by at most one tick's delta: starting
from a non-negative cooldown, after any run of `player_input` ticks whose
deltas lie in `[0, dmax]` the cooldown stays at or above `-dmax` (once
non-positive it is left unchanged until a jump resets it to `1/10`). -/
theorem cooldown_lower_bound (dmax : ℚ) (hdm : 0 ≤ dmax)
    (steps : List (ℚ × InputState × ℚ)) (p : Player)
    (h0 : 0 ≤ p.jump_cooldown)
    (hd : ∀ s ∈ steps, 0 ≤ s.1 ∧ s.1 ≤ dmax) :
    -dmax ≤ (player_input_run steps p).jump_cooldown := by
  have main : ∀ (l : List (ℚ × InputState × ℚ)) (q : Player),
      -dmax ≤ q.jump_cooldown → (∀ s ∈ l, 0 ≤ s.1 ∧ s.1 ≤ dmax) →
      -dmax ≤ (player_input_run l q).jump_cooldown := by
    intro l
    induction l with
    | nil => intro q hq _; exact hq
    | cons s rest ih =>
      intro q hq hl
      have hs := hl s (List.mem_cons_self s rest)
      have hrest : ∀ u ∈ rest, 0 ≤ u.1 ∧ u.1 ≤ dmax :=
        fun u hu => hl u (List.mem_cons_of_mem s hu)
      have hstep : -dmax ≤ (player_input s.1 s.2.1 q s.2.2).jump_cooldown := by
        simp only [player_input]
        split_ifs <;> dsimp only <;> linarith [hs.1, hs.2]
      exact ih (player_input s.1 s.2.1 q s.2.2) hstep hrest
  exact main steps p (by linarith) hd

/-- Witness for C5's amended theorem: the counterexample tick, bounded by
`dmax = 1/10`. -/
theorem cooldown_lower_bound_witness :
    -(1/10 : ℚ) ≤
      (player_input_run [(1/10, ⟨false, false⟩, groundLevel)] ⟨0, false, 1/20⟩).jump_cooldown :=
  cooldown_lower_bound (1/10) (by norm_num) [(1/10, ⟨false, false⟩, groundLevel)]
    ⟨0, false, 1/20⟩ (by norm_num) (by intro s hs; simp at hs; rw [hs]; norm_num)

/-- C9: after the per-tick cleanup, every entity matched by the despawn
query (`Velocity` present, not the player) whose x is strictly below `-500`
is gone, every such entity with x at or above `-500` survives unchanged, and
the player is never removed by this rule. -/
theorem despawn_offscreen_spec (es : List Ent) (e : Ent) (he : e ∈ es) :
    (e.hasVelocity = true → e.isPlayer = false → e.x < -500 →
        e ∉ despawn_offscreen es) ∧
    (-500 ≤ e.x → e ∈ despawn_offscreen es) ∧
    (e.isPlayer = true → e ∈ despawn_offscreen es) := by
  refine ⟨?_, ?_, ?_⟩
  · intro hv hp hx hmem
    rw [despawn_offscreen, List.mem_filter] at hmem
    have h2 := hmem.2
    simp only [decide_eq_true_eq] at h2
    exact h2 ⟨hv, hp, hx⟩
  · intro hx
    rw [despawn_offscreen, List.mem_filter]
    refine ⟨he, ?_⟩
    simp only [decide_eq_true_eq]
    intro hc
    exact absurd hc.2.2 (not_lt.mpr hx)
  · intro hp
    rw [despawn_offscreen, List.mem_filter]
    refine ⟨he, ?_⟩
    simp only [decide_eq_true_eq]
    intro hc
    rw [hp] at hc
    exact Bool.noConfusion hc.2.1

/-- Witness for C9: a far-off-screen ground tile is despawned. -/
theorem despawn_offscreen_witness :
    (⟨true, false, -600⟩ : Ent) ∉ despawn_offscreen [⟨true, false, -600⟩] :=
  (despawn_offscreen_spec [⟨true, false, -600⟩] ⟨true, false, -600⟩
    (List.mem_singleton.mpr rfl)).1 rfl rfl (by norm_num)

/-- The loop body of `check_collisions` with its early exits collapses to
the narrow-phase test alone: a pair rejected by either broad-phase exit also
fails the `|dx| < 25 && |dy| < 25` test. -/
theorem pair_collides_eq_narrow (px py ox oy : ℚ) :
    pair_collides px py ox oy = (decide (|px - ox| < 25) && decide (|py - oy| < 25)) := by
  simp only [pair_collides]
  split_ifs with h1 h2
  · have hx : ¬ |px - ox| < 25 := by linarith
    simp [hx]
  · have hy : ¬ |py - oy| < 25 := by linarith
    simp [hy]
  · rfl

/-- A colliding pair anywhere in the obstacle list forces the `GameOver`
outcome, wherever it sits in the iteration order. -/
theorem check_collisions_of_mem (px py : ℚ) (obs : List (ℚ × ℚ)) (o : ℚ × ℚ)
    (ho : o ∈ obs) (hc : pair_collides px py o.1 o.2 = true) :
    check_collisions px py obs = GameState.GameOver := by
  induction obs with
  | nil => cases ho
  | cons a rest ih =>
    rw [check_collisions]
    rcases List.mem_cons.mp ho with h | h
    · subst h
      rw [if_pos hc]
    · split_ifs with ha
      · rfl
      · exact ih h

/-- C1: for every player and obstacle center pair, if both center distances
are strictly below 25 the collision sweep ends in `GameOver` no matter where
the pair sits in the obstacle order; and if either center distance exceeds
50, the pair test never declares a collision. -/
theorem check_collisions_threshold_spec (px py ox oy : ℚ) (obs : List (ℚ × ℚ)) :
    ((ox, oy) ∈ obs → |px - ox| < 25 → |py - oy| < 25 →
        check_collisions px py obs = GameState.GameOver) ∧
    (|px - ox| > 50 ∨ |py - oy| > 50 → pair_collides px py ox oy = false) := by
  constructor
  · intro hmem hx hy
    refine check_collisions_of_mem px py obs (ox, oy) hmem ?_
    rw [pair_collides_eq_narrow]
    simp [hx, hy]
  · intro hfar
    rw [pair_collides_eq_narrow]
    rcases hfar with h | h
    · have : ¬ |px - ox| < 25 := by linarith
      simp [this]
    · have : ¬ |py - oy| < 25 := by linarith
      simp [this]

/-- Witness for C1: an overlapping pair at the origin triggers `GameOver`,
and a pair 100 apart is never flagged. -/
theorem check_collisions_threshold_witness :
    check_collisions 0 0 [(0, 0)] = GameState.GameOver ∧
    pair_collides 0 0 100 0 = false :=
  ⟨(check_collisions_threshold_spec 0 0 0 0 [(0, 0)]).1 (List.mem_singleton.mpr rfl)
      (by norm_num) (by norm_num),
   (check_collisions_threshold_spec 0 0 100 0 []).2 (Or.inl (by norm_num))⟩

/-- C10: the broad-phase early exits never change the collision outcome —
the full sweep and the narrow-phase-only sweep agree on every player
position and every obstacle list. -/
theorem broad_phase_refinement (px py : ℚ) (obs : List (ℚ × ℚ)) :
    check_collisions px py obs = check_collisions_narrow px py obs := by
  induction obs with
  | nil => rfl
  | cons o rest ih =>
    rw [check_collisions, check_collisions_narrow, pair_collides_eq_narrow]
    by_cases h : |px - o.1| < 25 ∧ |py - o.2| < 25
    · rw [if_pos h]
      have : (decide (|px - o.1| < 25) && decide (|py - o.2| < 25)) = true := by
        simp [h.1, h.2]
      rw [this]
      rfl
    · rw [if_neg h]
      have : (decide (|px - o.1| < 25) && decide (|py - o.2| < 25)) = false := by
        rcases not_and_or.mp h with h1 | h1 <;> simp [h1]
      rw [this]
      simpa using ih

/-- Once the obstacle's `scored` flag is set, no later tick emits a point. -/
theorem score_increments_scored (px : ℚ) (xs : List ℚ) :
    score_increments px true xs = 0 := by
  induction xs with
  | nil => rfl
  | cons x xs ih =>
    rw [score_increments]
    simp [score_step, ih]

/-- An unscored obstacle emits exactly one point over its run iff some tick
sees it strictly left of the player, and none otherwise. -/
theorem score_increments_unscored (px : ℚ) (xs : List ℚ) :
    score_increments px false xs =
      (if xs.any (fun z => decide (z < px)) then 1 else 0) := by
  induction xs with
  | nil => simp [score_increments]
  | cons x xs ih =>
    rw [score_increments]
    by_cases hx : x < px
    · simp [score_step, hx, score_increments_scored]
    · simp [score_step, hx, ih]

/-- The per-tick effect of `update_score` decomposes obstacle-wise into
`score_step`: the counter grows by the sum of the per-obstacle emissions and
each obstacle's flag is updated by its own `score_step`. -/
theorem update_score_decomp (px : ℚ) (obs : List Obstacle) :
    ∀ (s : ℕ) (t : String),
      (update_score px s t obs).1 = s + (obs.map (fun o => (score_step px o).2)).sum ∧
      (update_score px s t obs).2.2 = obs.map (fun o => (score_step px o).1) := by
  induction obs with
  | nil => intro s t; simp [update_score]
  | cons o os ih =>
    intro s t
    by_cases hc : o.scored = false ∧ o.x < px
    · have hstep : score_step px o = (⟨o.x, true⟩, 1) := by
        rw [score_step, if_pos hc]
      rw [update_score, if_pos hc]
      dsimp only
      simp only [List.map_cons, List.sum_cons, hstep]
      exact ⟨by rw [(ih _ _).1]; omega, by rw [(ih _ _).2]⟩
    · have hstep : score_step px o = (o, 0) := by
        rw [score_step, if_neg hc]
      rw [update_score, if_neg hc]
      dsimp only
      simp only [List.map_cons, List.sum_cons, hstep]
      exact ⟨by rw [(ih _ _).1]; omega, by rw [(ih _ _).2]⟩

/-- C3: the score is incremented on behalf of each obstacle at most once.
`update_score`'s per-tick effect is obstacle-wise `score_step`; across an
obstacle's lifetime (the trajectory `xs` of its x positions, the flag
persisting tick to tick) a scored obstacle never emits again, an unscored
one emits exactly once iff some tick sees `x < px`, and the single emission
lands on the first such tick: every earlier tick emits nothing. -/
theorem score_at_most_once (px : ℚ) (s : ℕ) (t : String) (obs : List Obstacle)
    (xs pre post : List ℚ) (x : ℚ) :
    (update_score px s t obs).1 = s + (obs.map (fun o => (score_step px o).2)).sum ∧
    (update_score px s t obs).2.2 = obs.map (fun o => (score_step px o).1) ∧
    score_increments px true xs = 0 ∧
    score_increments px false xs = (if xs.any (fun z => decide (z < px)) then 1 else 0) ∧
    ((∀ z ∈ pre, ¬ z < px) → x < px →
        score_increments px false pre = 0 ∧
        score_increments px false (pre ++ x :: post) = 1) := by
  refine ⟨(update_score_decomp px obs s t).1, (update_score_decomp px obs s t).2,
    score_increments_scored px xs, score_increments_unscored px xs, ?_⟩
  intro hpre hx
  have hanypre : pre.any (fun z => decide (z < px)) = false := by
    rw [List.any_eq_false]
    intro z hz
    simpa using hpre z hz
  constructor
  · rw [score_increments_unscored, hanypre]
    rfl
  · rw [score_increments_unscored, List.any_append, hanypre]
    simp [hx]

/-- Witness for C3: with the player at 0, an obstacle still right of the
player at 5 scores nothing, and the run `[5, -1]` scores exactly once. -/
theorem score_at_most_once_witness :
    score_increments 0 false [(5 : ℚ)] = 0 ∧
    score_increments 0 false [(5 : ℚ), -1] = 1 :=
  (score_at_most_once 0 0 "Score: 0" [] [] [(5 : ℚ)] [] (-1)).2.2.2.2
    (by intro z hz; simp at hz; rw [hz]; norm_num) (by norm_num)

/-- C4: the jump fires exactly when the edge-triggered signal is up, the
player is at or below the resting height, and the tick's (already
decremented) cooldown is nonpositive; firing sets `velocity_y = 500`,
`is_jumping = true` and `jump_cooldown = 0.1`, and otherwise velocity and
the jumping flag are untouched.  In particular an airborne player
(`y > groundLevel`) never re-applies `JUMP_SPEED` however often the edge
signal is re-issued, and a grounded player with zero cooldown who jumps is
strictly above the ground after the same tick's gravity step. -/
theorem player_input_jump_spec (dt : ℚ) (input : InputState) (p : Player) (y : ℚ) :
    (input.space_just_pressed = true ∧ y ≤ groundLevel ∧ cooldown_after dt p ≤ 0 →
        player_input dt input p y = ⟨JUMP_SPEED, true, 1/10⟩) ∧
    (¬ (input.space_just_pressed = true ∧ y ≤ groundLevel ∧ cooldown_after dt p ≤ 0) →
        player_input dt input p y = ⟨p.velocity_y, p.is_jumping, cooldown_after dt p⟩) ∧
    (groundLevel < y →
        (player_input dt input p y).velocity_y = p.velocity_y ∧
        (player_input dt input p y).is_jumping = p.is_jumping) ∧
    (input.space_just_pressed = true → p.jump_cooldown = 0 → y = groundLevel →
        0 < dt → dt ≤ 1/3 →
        player_input dt input p y = ⟨JUMP_SPEED, true, 1/10⟩ ∧
        groundLevel < (apply_gravity dt (player_input dt input p y) y).2) := by
  have hcond : ∀ q : Player, player_input dt input q y =
      (if input.space_just_pressed = true ∧ y ≤ groundLevel ∧ cooldown_after dt q ≤ 0 then
        (⟨JUMP_SPEED, true, 1/10⟩ : Player)
      else ⟨q.velocity_y, q.is_jumping, cooldown_after dt q⟩) := by
    intro q
    rfl
  refine ⟨?_, ?_, ?_, ?_⟩
  · intro h
    rw [hcond, if_pos h]
  · intro h
    rw [hcond, if_neg h]
  · intro hy
    have h : ¬ (input.space_just_pressed = true ∧ y ≤ groundLevel ∧
        cooldown_after dt p ≤ 0) :=
      fun hc => absurd hc.2.1 (not_le.mpr hy)
    rw [hcond, if_neg h]
    exact ⟨rfl, rfl⟩
  · intro h1 h2 h3 h4 h5
    have hcd : cooldown_after dt p ≤ 0 := by
      rw [cooldown_after, h2]
      norm_num
    have hjump : player_input dt input p y = ⟨JUMP_SPEED, true, 1/10⟩ := by
      rw [hcond, if_pos ⟨h1, h3.le, hcd⟩]
    refine ⟨hjump, ?_⟩
    rw [hjump]
    have hv : (0 : ℚ) < JUMP_SPEED + GRAVITY * dt := by
      rw [JUMP_SPEED, GRAVITY]
      linarith
    have hy2 : groundLevel < y + (JUMP_SPEED + GRAVITY * dt) * dt := by
      rw [h3]
      nlinarith
    simp only [apply_gravity]
    rw [if_neg (by rw [show GROUND_Y + 30 = groundLevel from rfl]; exact not_le.mpr hy2)]
    exact hy2

/-- Witness for C4: a grounded player with zero cooldown jumps on the edge
signal and is strictly airborne after the gravity step at `dt = 1/60`. -/
theorem player_input_jump_witness :
    player_input (1/60) ⟨true, true⟩ ⟨0, false, 0⟩ groundLevel = ⟨JUMP_SPEED, true, 1/10⟩ ∧
    groundLevel <
      (apply_gravity (1/60) (player_input (1/60) ⟨true, true⟩ ⟨0, false, 0⟩ groundLevel)
        groundLevel).2 :=
  (player_input_jump_spec (1/60) ⟨true, true⟩ ⟨0, false, 0⟩ groundLevel).2.2.2
    rfl rfl rfl (by norm_num) (by norm_num)

/-- C6: whenever the obstacle timer fires, the duration is resampled to
`0.5 + u * 1.3` for the unit sample `u` and the countdown is reset — for
both outcomes of the 0.85 Bernoulli trial — and for every sample
`u ∈ [0,1)` the new duration lies in `[0.5, 1.8)`. -/
theorem spawn_timer_resample_spec (t : Timer) (dt : ℚ) (bern : Bool) (idx : Fin 2) (u : ℚ)
    (hu0 : 0 ≤ u) (hu1 : u < 1) (hf : (t.tick dt).justFinished = true) :
    (spawn_obstacles t dt bern idx u).1.duration = sample_range (1/2) (9/5) u ∧
    1/2 ≤ (spawn_obstacles t dt bern idx u).1.duration ∧
    (spawn_obstacles t dt bern idx u).1.duration < 9/5 ∧
    (spawn_obstacles t dt bern idx u).1.elapsed = 0 := by
  have hd : (spawn_obstacles t dt bern idx u).1 = ⟨sample_range (1/2) (9/5) u, 0⟩ := by
    simp only [spawn_obstacles, hf]
    rfl
  rw [hd]
  refine ⟨rfl, ?_, ?_, rfl⟩
  · simp only [sample_range]
    nlinarith
  · simp only [sample_range]
    nlinarith

/-- Witness for C6: the initial 2-second timer fired by a 2-second tick,
resampled at the bottom of the unit interval. -/
theorem spawn_timer_resample_witness :
    (spawn_obstacles ⟨2, 0⟩ 2 true 0 0).1.duration = sample_range (1/2) (9/5) 0 ∧
    1/2 ≤ (spawn_obstacles ⟨2, 0⟩ 2 true 0 0).1.duration ∧
    (spawn_obstacles ⟨2, 0⟩ 2 true 0 0).1.duration < 9/5 ∧
    (spawn_obstacles ⟨2, 0⟩ 2 true 0 0).1.elapsed = 0 :=
  spawn_timer_resample_spec ⟨2, 0⟩ 2 true 0 0 le_rfl (by norm_num)
    (by norm_num [Timer.tick, Timer.justFinished])

/-- C7: in the `GameOver` schedule, holding the key yields no edge so the
restart cannot re-fire; without an edge only the input resource changes;
and on an edge the restart — within the same tick — despawns every
obstacle and game-over entity, re-seeds the ground strip, the player, the
`"Score: 0"` display and the FPS text, clears both input flags, resets the
spawn timer to a fresh 2.0-second duration and moves the state to
`Playing`.  Outside `GameOver` the schedule does not run. -/
theorem restart_game_spec (w : World) (raw : Bool) :
    (w.input.space_pressed = true → (handle_input w.input raw).space_just_pressed = false) ∧
    (w.state = GameState.GameOver → (handle_input w.input raw).space_just_pressed = false →
        gameover_update w raw = { w with input := handle_input w.input raw }) ∧
    (w.state = GameState.GameOver → (handle_input w.input raw).space_just_pressed = true →
        gameover_update w raw =
          ⟨[initial_player], [], spawn_ground, [⟨0, "Score: 0"⟩], ["FPS: 60"], [],
           ⟨false, false⟩, ⟨2, 0⟩, GameState.Playing⟩) ∧
    (w.state = GameState.Playing → gameover_update w raw = w) := by
  refine ⟨?_, ?_, ?_, ?_⟩
  · intro hp
    simp [handle_input, hp]
  · intro hs he
    rw [gameover_update, if_pos hs, restart_game, if_neg]
    simpa using he
  · intro hs he
    rw [gameover_update, if_pos hs, restart_game, if_pos]
    simpa using he
  · intro hs
    rw [gameover_update, if_neg]
    rw [hs]
    exact fun h => GameState.noConfusion h

/-- Unfolding a contiguous run one tile at a time. -/
theorem tile_run_succ (lo : ℚ) (m : ℕ) :
    tile_run lo (m + 1) = lo :: tile_run (lo + 100) m := by
  rw [tile_run, List.range_succ_eq_map, List.map_cons, List.map_map, tile_run]
  congr 1
  · simp
  · apply List.map_congr_left
    intro k _
    simp only [Function.comp_apply]
    push_cast
    ring

/-- Splitting a contiguous run. -/
theorem tile_run_add (lo : ℚ) (n k : ℕ) :
    tile_run lo (n + k) = tile_run lo n ++ tile_run (lo + 100 * n) k := by
  rw [tile_run, tile_run, tile_run, List.range_add, List.map_append, List.map_map]
  congr 1
  apply List.map_congr_left
  intro x _
  simp only [Function.comp_apply]
  push_cast
  ring

/-- A three-tile run, spelled out. -/
theorem tile_run_three (x : ℚ) : tile_run x 3 = [x, x + 100, x + 200] := by
  rw [tile_run]
  simp [List.range_succ]
  norm_num

/-- Scrolling shifts a contiguous run left as one block. -/
theorem move_tile_run (dt lo : ℚ) (n : ℕ) :
    move_ground dt (tile_run lo n) = tile_run (lo - 300 * dt) n := by
  rw [move_ground, tile_run, tile_run, List.map_map]
  apply List.map_congr_left
  intro k _
  simp only [Function.comp_apply, GAME_SPEED]
  ring

/-- Cleanup keeps a run whose leftmost tile is at or right of the despawn
threshold intact. -/
theorem despawn_tile_run_all (lo : ℚ) (n : ℕ) (h : -500 ≤ lo) :
    despawn_ground (tile_run lo n) = tile_run lo n := by
  rw [despawn_ground]
  apply List.filter_eq_self.mpr
  intro x hx
  rw [tile_run] at hx
  obtain ⟨k, -, rfl⟩ := List.mem_map.mp hx
  simp only [decide_eq_true_eq]
  intro hlt
  have hk : (0:ℚ) ≤ 100 * (k : ℚ) := by positivity
  linarith

/-- Cleanup drops the head of a run whose leftmost tile is past the despawn
threshold. -/
theorem despawn_tile_run_head (lo : ℚ) (m : ℕ) (h : lo < -500) :
    despawn_ground (tile_run lo (m + 1)) = despawn_ground (tile_run (lo + 100) m) := by
  have hd : decide (¬ lo < -500) = false := by simp [h]
  rw [tile_run_succ, despawn_ground, despawn_ground, List.filter_cons, hd]
  simp

/-- Cleanup of a run reaching left of the window and right of x = 200
yields a contiguous run with the same right end whose leftmost tile still
covers the window's left edge. -/
theorem despawn_run_spec : ∀ (m : ℕ) (lo : ℚ), lo ≤ -400 → 200 ≤ lo + 100 * m →
    ∃ lo2 : ℚ, ∃ m2 : ℕ,
      despawn_ground (tile_run lo (m + 1)) = tile_run lo2 (m2 + 1) ∧
      lo2 ≤ -400 ∧ lo2 + 100 * m2 = lo + 100 * m := by
  intro m
  induction m with
  | zero =>
    intro lo h1 h2
    push_cast at h2
    linarith
  | succ m ih =>
    intro lo h1 h2
    by_cases hlo : -500 ≤ lo
    · exact ⟨lo, m + 1, despawn_tile_run_all _ _ hlo, h1, rfl⟩
    · rw [despawn_tile_run_head lo (m + 1) (not_le.mp hlo)]
      push_cast at h2
      obtain ⟨lo2, m2, heq, hb, hsum⟩ :=
        ih (lo + 100) (by linarith) (by linarith)
      refine ⟨lo2, m2, heq, hb, ?_⟩
      rw [hsum]
      push_cast
      ring

/-- The rightmost-fold of `spawn_ground_tiles` over a contiguous run yields
the larger of the accumulator and the run's last tile. -/
theorem rightmost_tile_run : ∀ (m : ℕ) (lo a : ℚ),
    (tile_run lo (m + 1)).foldl (fun acc x => if x > acc then x else acc) a
      = max a (lo + 100 * m) := by
  intro m
  induction m with
  | zero =>
    intro lo a
    have h0 : tile_run (lo + 100) 0 = [] := rfl
    rw [tile_run_succ, h0, List.foldl_cons, List.foldl_nil, Nat.cast_zero, mul_zero,
      add_zero]
    by_cases h : lo > a
    · rw [if_pos h, max_eq_right h.le]
    · rw [if_neg h, max_eq_left (not_lt.mp h)]
  | succ m ih =>
    intro lo a
    rw [tile_run_succ, List.foldl_cons, ih]
    have harith : lo + 100 + 100 * (m : ℚ) = lo + 100 * ((m + 1 : ℕ) : ℚ) := by
      push_cast
      ring
    rw [harith]
    have hnn : (0:ℚ) ≤ 100 * ((m + 1 : ℕ) : ℚ) := by positivity
    have hloX : lo ≤ lo + 100 * ((m + 1 : ℕ) : ℚ) := by linarith
    by_cases h : lo > a
    · rw [if_pos h, max_eq_right hloX, max_eq_right (le_trans h.le hloX)]
    · rw [if_neg h]

/-- The code's `rightmost_x` over a contiguous run. -/
theorem rightmost_run (lo : ℚ) (m : ℕ) :
    rightmost (tile_run lo (m + 1)) = max (-400) (lo + 100 * m) := by
  rw [rightmost]
  exact rightmost_tile_run m lo (-400)

/-- Tile replenishment on a contiguous run whose last tile is at or right of
x = -400: three contiguous tiles are appended exactly when the last tile
sits left of the threshold `WINDOW_WIDTH/2 + 100 = 500`. -/
theorem spawn_tiles_run (lo : ℚ) (m : ℕ) (hge : -400 ≤ lo + 100 * m) :
    spawn_ground_tiles (tile_run lo (m + 1)) =
      if lo + 100 * m < 500 then tile_run lo (m + 4) else tile_run lo (m + 1) := by
  have h500 : WINDOW_WIDTH / 2 + 100 = (500 : ℚ) := by
    rw [WINDOW_WIDTH]
    norm_num
  simp only [spawn_ground_tiles, rightmost_run, max_eq_right hge, h500]
  by_cases hr : lo + 100 * m < 500
  · rw [if_pos hr, if_pos hr, show m + 4 = (m + 1) + 3 from rfl,
      tile_run_add lo (m + 1) 3, tile_run_three]
    congr 1
    simp only [List.cons.injEq, and_true]
    refine ⟨?_, ?_, ?_⟩ <;> push_cast <;> ring
  · rw [if_neg hr, if_neg hr]

/-- One Playing tick with `0 ≤ dt ≤ 1` preserves the ground-strip
invariant. -/
theorem ground_tick_inv (dt : ℚ) (h0 : 0 ≤ dt) (h1 : dt ≤ 1) (g : List ℚ)
    (hg : GroundInv g) : GroundInv (ground_tick dt g) := by
  obtain ⟨lo, m, rfl, hlo, hhi⟩ := hg
  rw [ground_tick, move_tile_run]
  have hlo1 : lo - 300 * dt ≤ -400 := by linarith
  have hhi1 : 200 ≤ lo - 300 * dt + 100 * m := by linarith
  obtain ⟨lo2, m2, heq, hb2, hsum⟩ := despawn_run_spec m (lo - 300 * dt) hlo1 hhi1
  rw [heq]
  have hge : -400 ≤ lo2 + 100 * m2 := by
    rw [hsum]
    linarith
  rw [spawn_tiles_run lo2 m2 hge]
  by_cases hr : lo2 + 100 * m2 < 500
  · rw [if_pos hr]
    refine ⟨lo2, m2 + 3, rfl, hb2, ?_⟩
    push_cast
    linarith
  · rw [if_neg hr]
    exact ⟨lo2, m2, rfl, hb2, not_lt.mp hr⟩

/-- The ground-strip invariant survives any run of Playing ticks with each
delta in `[0, 1]`. -/
theorem ground_run_inv : ∀ (dts : List ℚ), (∀ d ∈ dts, 0 ≤ d ∧ d ≤ 1) →
    ∀ g, GroundInv g → GroundInv (dts.foldl (fun acc d => ground_tick d acc) g) := by
  intro dts
  induction dts with
  | nil => intro _ g hg; exact hg
  | cons d rest ih =>
    intro hd g hg
    have hdd := hd d (List.mem_cons_self d rest)
    exact ih (fun u hu => hd u (List.mem_cons_of_mem d hu)) (ground_tick d g)
      (ground_tick_inv d hdd.1 hdd.2 g hg)

/-- A contiguous run covers every point of its span: some tile center is
within half a tile width. -/
theorem tile_run_cover : ∀ (m : ℕ) (lo p : ℚ), lo - 50 ≤ p → p ≤ lo + 100 * m + 50 →
    ∃ c ∈ tile_run lo (m + 1), |p - c| ≤ 50 := by
  intro m
  induction m with
  | zero =>
    intro lo p h1 h2
    push_cast at h2
    refine ⟨lo, by rw [tile_run_succ]; exact List.mem_cons_self _ _, ?_⟩
    rw [abs_le]
    constructor <;> linarith
  | succ m ih =>
    intro lo p h1 h2
    by_cases hc : p ≤ lo + 50
    · refine ⟨lo, by rw [tile_run_succ]; exact List.mem_cons_self _ _, ?_⟩
      rw [abs_le]
      constructor <;> linarith
    · push_cast at h2
      obtain ⟨c, hm, hd⟩ := ih (lo + 100) p (by linarith) (by linarith)
      exact ⟨c, by rw [tile_run_succ]; exact List.mem_cons_of_mem _ hm, hd⟩

/-- The ground-strip invariant gives gap-free coverage of the window plus a
half-tile buffer each side. -/
theorem ground_inv_cover (g : List ℚ) (hg : GroundInv g) (p : ℚ)
    (h1 : -450 ≤ p) (h2 : p ≤ 550) : ∃ c ∈ g, |p - c| ≤ 50 := by
  obtain ⟨lo, m, rfl, hlo, hhi⟩ := hg
  exact tile_run_cover m lo p (by linarith) (by linarith)

/-- The seeded tile count is `ceil((end_x - start_x) / tile_width) = 14`. -/
theorem tile_count_eq : tile_count = 14 := by
  rw [tile_count, ground_end_x, ground_start_x, tile_width, WINDOW_WIDTH]
  norm_num
  decide

/-- The initial ground strip satisfies the invariant. -/
theorem spawn_ground_inv : GroundInv spawn_ground := by
  refine ⟨-600, 13, ?_, by norm_num, by norm_num⟩
  rw [spawn_ground, tile_count_eq, tile_run]
  apply List.map_congr_left
  intro i _
  rw [ground_start_x, tile_width, WINDOW_WIDTH]
  ring

/-- C8: the seeding covers the configured span in one shot with
`tile_count = ceil((end_x - start_x)/tile_width) = 14` contiguous tiles, and
after any sequence of Playing ticks (each delta in `[0, 1]` seconds — the
app fixes `dt = 1/60`) the ground tiles still cover the visible window
`[-400, 400]` plus a 50-wide buffer each side with no gap: every point of
`[-450, 550]` lies within half a tile width of some tile center. -/
theorem ground_coverage_spec (dts : List ℚ) (hd : ∀ d ∈ dts, 0 ≤ d ∧ d ≤ 1)
    (p : ℚ) (hp1 : -450 ≤ p) (hp2 : p ≤ 550) :
    spawn_ground = tile_run ground_start_x tile_count ∧
    tile_count = 14 ∧
    ∃ c ∈ dts.foldl (fun acc d => ground_tick d acc) spawn_ground, |p - c| ≤ 50 := by
  refine ⟨?_, tile_count_eq, ?_⟩
  · rw [spawn_ground, tile_run]
    apply List.map_congr_left
    intro i _
    rw [tile_width]
    ring
  · exact ground_inv_cover _ (ground_run_inv dts hd spawn_ground spawn_ground_inv) p hp1
      hp2

/-- Witness for C8: after one full-second tick, the window center is still
covered. -/
theorem ground_coverage_witness :
    spawn_ground = tile_run ground_start_x tile_count ∧
    tile_count = 14 ∧
    ∃ c ∈ [(1:ℚ)].foldl (fun acc d => ground_tick d acc) spawn_ground, |(0:ℚ) - c| ≤ 50 :=
  ground_coverage_spec [(1:ℚ)]
    (by intro d hd; simp at hd; rw [hd]; norm_num) 0 (by norm_num) (by norm_num)

/-- Witness for C7: a mid-run game-over world restarted by a fresh space
press. -/
theorem restart_game_witness :
    gameover_update
      ⟨[initial_player], [⟨0, false⟩], [], [⟨3, "Score: 3"⟩], ["FPS: 60"],
        ["Game Over! Press SPACE to restart"], ⟨false, false⟩, ⟨17/10, 1/2⟩,
        GameState.GameOver⟩ true =
      ⟨[initial_player], [], spawn_ground, [⟨0, "Score: 0"⟩], ["FPS: 60"], [],
        ⟨false, false⟩, ⟨2, 0⟩, GameState.Playing⟩ :=
  (restart_game_spec
    ⟨[initial_player], [⟨0, false⟩], [], [⟨3, "Score: 3"⟩], ["FPS: 60"],
      ["Game Over! Press SPACE to restart"], ⟨false, false⟩, ⟨17/10, 1/2⟩,
      GameState.GameOver⟩ true).2.2.1 rfl rfl

end Dino
